import Mathlib

/-!
Verification development for the NB5 execution engine of the bench-flow
repository (`backend/nb5_executor.py`).

Two models are developed, both translated directly from the source:

* a sequential registry-level model of the `NB5Executor` class: its two
  dictionaries `active_executions` / `execution_logs`, and the methods
  `execute_nb5_command`, `get_execution_status`, `terminate_execution`,
  `list_executions`, `_capture_output`, plus the cleanup paths of
  `_monitor_process`;

* a fine-grained interleaving machine for a single job, whose atomic
  actions are the individual shared-state statements of the monitor
  thread (`_monitor_process`), the terminating caller
  (`terminate_execution`), and the external process itself, so that
  races between natural exit, timeout expiry and manual termination can
  be analysed exactly.
-/

namespace BenchFlow

/-- Job status strings stored in `execution_logs[...]['status']`:
`running`, `completed`, `failed`, `timeout`, `terminated`, `error`. -/
inductive Status where
  | running
  | completed
  | failed
  | timedOut
  | terminated
  | error
deriving DecidableEq, Repr

/-- A spawned process handle, abstracted to what the executor observes of
it through `poll()`: `none` while the process is alive, `some rc` once it
has exited with return code `rc`. -/
structure ProcHandle where
  exitCode : Option Int
deriving DecidableEq, Repr

/-- One value of the `active_executions` dictionary
(`nb5_executor.py` lines 131-137): process handle, display command string,
temp yaml path, start time and configured timeout. -/
structure ExecEntry where
  proc : ProcHandle
  command : String
  yamlPath : String
  start_time : Nat
  timeoutV : Nat
deriving DecidableEq, Repr

/-- One value of the `execution_logs` dictionary
(`nb5_executor.py` lines 140-144): the two output buffers and the status. -/
structure LogEntry where
  stdout : List String
  stderr : List String
  status : Status
deriving DecidableEq, Repr

/-- Insertion-ordered dictionary lookup, as for a Python `dict`. -/
def dictGet {α : Type} : List (String × α) → String → Option α
  | [], _ => none
  | (k, v) :: rest, key => if k = key then some v else dictGet rest key

/-- Python `d[key] = v`: replaces in place if the key exists (keeping its
insertion position), otherwise appends at the end. -/
def dictSet {α : Type} : List (String × α) → String → α → List (String × α)
  | [], key, v => [(key, v)]
  | (k, w) :: rest, key, v =>
      if k = key then (k, v) :: rest else (k, w) :: dictSet rest key v

/-- Python `del d[key]`. -/
def dictDel {α : Type} : List (String × α) → String → List (String × α)
  | [], _ => []
  | (k, w) :: rest, key =>
      if k = key then rest else (k, w) :: dictDel rest key

/-- The whole mutable state of an `NB5Executor` instance, together with
the scratch files currently existing on disk (`tempFiles`). -/
structure ExecState where
  active : List (String × ExecEntry)
  logs : List (String × LogEntry)
  tempFiles : List String
deriving DecidableEq, Repr

/-- The empty executor state (`__init__`, lines 25-26). -/
def ExecState.init : ExecState := { active := [], logs := [], tempFiles := [] }

/-- The view returned by `get_execution_status` (lines 296-303). -/
structure StatusView where
  execution_id : String
  status : Status
  command : String
  is_running : Bool
  stdout : List String
  stderr : List String
deriving DecidableEq, Repr

/-- The per-job summary built by `list_executions` (lines 351-358). -/
structure ExecSummary where
  execution_id : String
  status : Status
  is_running : Bool
  command : String
  start_time : Nat
  log_size : Nat
deriving DecidableEq, Repr

/-- The record returned by a successful `execute_nb5_command`
(lines 169-173). -/
structure ExecResult where
  execution_id : String
  command : String
  status : Status
deriving DecidableEq, Repr

/-- Model of `generate_execution_command` (lines 38-60): the display command
string, joined with a backslash-newline separator. -/
def generate_execution_command (nb5Path yamlFile host datacenter keyspace : String)
    (additionalParams : Option String) : String :=
  let baseParts : List String :=
    ["java", "--enable-preview", "-jar", nb5Path,
     "\"" ++ yamlFile ++ "\"",
     "host=" ++ host,
     "localdc=" ++ datacenter,
     "keyspace=" ++ keyspace]
  let withExtra : List String :=
    match additionalParams with
    | some p => baseParts ++ [p]
    | none => baseParts
  String.intercalate " \\\n  " (withExtra ++ ["--progress console:1s"])

/-- The environment a single `execute_nb5_command` call draws from: whether
the jar exists (`validate_nb5_path`), the millisecond clock read used for
the id (`int(time.time() * 1000)`, line 112), the second clock read stored
as `start_time` (line 135), the fresh name handed out by
`NamedTemporaryFile`, and the outcome of the `subprocess.Popen` call. -/
structure LaunchEnv where
  nb5Exists : Bool
  nowMs : Nat
  startClock : Nat
  tempPath : String
  spawn : Except String ProcHandle
deriving Repr

/-- The caller-supplied parameters of `execute_nb5_command`. -/
structure ExecParams where
  yamlContent : String
  host : String
  datacenter : String
  keyspace : String
  additionalParams : Option String
  timeoutV : Nat
deriving Repr

/-- Model of `execute_nb5_command` (lines 62-183).  Checks the jar, materialises the
yaml scratch file, spawns the process, registers the job under the id
`"nb5_" ++ milliseconds` in both dictionaries; on any failure after the
scratch file exists, deletes it and surfaces the wrapped error
synchronously (lines 175-183). -/
def execute_nb5_command (nb5Path : String) (st : ExecState) (env : LaunchEnv)
    (p : ExecParams) : ExecState × Except String ExecResult :=
  if env.nb5Exists = false then
    (st, Except.error ("NB5 JAR file not found at " ++ nb5Path))
  else
    let fs1 := env.tempPath :: st.tempFiles
    match env.spawn with
    | Except.error e =>
        ({ st with tempFiles := fs1.erase env.tempPath },
         Except.error ("Error executing NB5 command: " ++ e))
    | Except.ok proc =>
        let execId := "nb5_" ++ toString env.nowMs
        let cmd := generate_execution_command nb5Path env.tempPath p.host
          p.datacenter p.keyspace p.additionalParams
        let entry : ExecEntry :=
          { proc := proc, command := cmd, yamlPath := env.tempPath,
            start_time := env.startClock, timeoutV := p.timeoutV }
        ({ st with
            active := dictSet st.active execId entry,
            logs := dictSet st.logs execId
              { stdout := [], stderr := [], status := Status.running },
            tempFiles := fs1 },
         Except.ok { execution_id := execId, command := cmd,
                     status := Status.running })

/-- Model of `get_execution_status` (lines 278-303).  Raises when the id is not in
`execution_logs`; `is_running` is computed live from `poll()`. -/
def get_execution_status (st : ExecState) (execId : String) :
    Except String StatusView :=
  match dictGet st.logs execId with
  | none => Except.error ("Execution " ++ execId ++ " not found")
  | some l =>
      let command :=
        match dictGet st.active execId with
        | some e => e.command
        | none => "Command not available"
      let isRunning : Bool :=
        match dictGet st.active execId with
        | some e => decide (e.proc.exitCode = none)
        | none => false
      Except.ok { execution_id := execId, status := l.status,
                  command := command, is_running := isRunning,
                  stdout := l.stdout, stderr := l.stderr }

/-- Model of `terminate_execution` (lines 305-329).  Raises when the id is not in
`active_executions`; when the process still polls alive it is killed and
the status set to `terminated` with an explanatory stderr line; in every
non-raising case the result is `get_execution_status` of the final state. -/
def terminate_execution (st : ExecState) (execId : String) :
    ExecState × Except String StatusView :=
  match dictGet st.active execId with
  | none =>
      (st, Except.error
        ("Execution " ++ execId ++ " not found or already completed"))
  | some e =>
      if e.proc.exitCode = none then
        let active' := dictSet st.active execId
          { e with proc := { exitCode := some (-15) } }
        let logs' :=
          match dictGet st.logs execId with
          | some l => dictSet st.logs execId
              { l with status := Status.terminated,
                       stderr := l.stderr ++ ["Execution was manually terminated."] }
          | none => st.logs
        let st' := { st with active := active', logs := logs' }
        (st', get_execution_status st' execId)
      else
        (st, get_execution_status st execId)

/-- The summary `list_executions` builds for one `execution_logs` item
(lines 335-358). -/
def mkSummary (st : ExecState) (item : String × LogEntry) : ExecSummary :=
  let execId := item.1
  let l := item.2
  let isRunning : Bool :=
    match dictGet st.active execId with
    | some e => decide (e.proc.exitCode = none)
    | none => false
  let command :=
    match dictGet st.active execId with
    | some e => e.command
    | none => "Command not available"
  let startT :=
    match dictGet st.active execId with
    | some e => e.start_time
    | none => 0
  { execution_id := execId, status := l.status, is_running := isRunning,
    command := command, start_time := startT,
    log_size := l.stdout.length + l.stderr.length }

/-- Model of `list_executions` (lines 331-363): one summary per `execution_logs`
entry, then `results.sort(key=lambda x: x['start_time'], reverse=True)` —
a stable descending sort on `start_time`. -/
def list_executions (st : ExecState) : List ExecSummary :=
  (st.logs.map (mkSummary st)).mergeSort
    (fun a b => decide (b.start_time ≤ a.start_time))

/-- The `delayed_cleanup` closure of `_monitor_process` (lines 258-261):
after the retention period the job is deleted from `active_executions`
only; its logs remain. -/
def delayed_cleanup (st : ExecState) (execId : String) : ExecState :=
  { st with active := dictDel st.active execId }

/-- Environment action, not executor code: the external process exits on
its own with return code `c`, which makes later `poll()` calls on its
handle return `some c`. -/
def proc_exits (st : ExecState) (execId : String) (c : Int) : ExecState :=
  match dictGet st.active execId with
  | none => st
  | some e =>
      match e.proc.exitCode with
      | some _ => st
      | none =>
          let e' : ExecEntry := { e with proc := { exitCode := some c } }
          { st with active := dictSet st.active execId e' }

/-- The natural-exit tail of `_monitor_process` (lines 231-251) run after
the process has been observed to exit: status bookkeeping guarded by
`current_status not in ['timeout', 'terminated']`, then deletion of the
scratch yaml file. -/
def monitor_finalize (st : ExecState) (execId : String) : ExecState :=
  match dictGet st.active execId with
  | none => st
  | some e =>
      match e.proc.exitCode with
      | none => st
      | some rc =>
          let logs' :=
            match dictGet st.logs execId with
            | none => st.logs
            | some l =>
                if l.status = Status.timedOut ∨ l.status = Status.terminated then
                  st.logs
                else if rc = 0 then
                  dictSet st.logs execId { l with status := Status.completed }
                else
                  dictSet st.logs execId
                    { l with status := Status.failed,
                             stderr := l.stderr ++
                               ["Process exited with return code " ++ toString rc] }
          { st with logs := logs', tempFiles := st.tempFiles.erase e.yamlPath }

/-- Python's `str.rstrip()`: drop trailing whitespace. -/
def pyRstrip (s : String) : String :=
  String.mk ((s.toList.reverse.dropWhile Char.isWhitespace).reverse)

/-- Which of the two output streams a capture worker drains. -/
inductive StreamKind where
  | out
  | err
deriving DecidableEq, Repr

/-- The `stream_type` string the worker is invoked with (lines 149/153). -/
def streamName : StreamKind → String
  | StreamKind.out => "stdout"
  | StreamKind.err => "stderr"

/-- What one `stream.readline` interaction yields: a line of text, or a
raised read error. -/
inductive ReadEvent where
  | line (s : String)
  | fail (msg : String)
deriving DecidableEq, Repr

/-- Append one captured line to the worker's own buffer of a log entry. -/
def appendLine (l : LogEntry) (k : StreamKind) (s : String) : LogEntry :=
  match k with
  | StreamKind.out => { l with stdout := l.stdout ++ [s] }
  | StreamKind.err => { l with stderr := l.stderr ++ [s] }

/-- Append a list of captured lines to the worker's own buffer. -/
def appendAll (l : LogEntry) (k : StreamKind) : List String → LogEntry
  | [] => l
  | s :: rest => appendAll (appendLine l k s) k rest

/-- Model of `_capture_output` (lines 185-200).  Reads the stream until end of
stream, appending each `rstrip`-ped line to the job's own buffer while the
id is still present in `execution_logs` (breaking out otherwise); a raised
read error stops the loop and is reported through `logger.error` — the
second component of the result is the sequence of service-logger lines the
call emits. -/
def capture_output (logs : List (String × LogEntry)) (execId : String)
    (k : StreamKind) : List ReadEvent → List (String × LogEntry) × List String
  | [] => (logs, [])
  | ReadEvent.line s :: rest =>
      match dictGet logs execId with
      | some l =>
          capture_output (dictSet logs execId (appendLine l k (pyRstrip s)))
            execId k rest
      | none => (logs, [])
  | ReadEvent.fail m :: _ =>
      (logs, ["Error capturing " ++ streamName k ++ " for " ++ execId ++
              ": " ++ m])

/-!
The fine-grained interleaving machine for one job.

Shared state per job: the process (observable exit code), the log entry's
`status` and `stderr` buffer, and the thread-local control state of the
monitor thread (`_monitor_process`) and of one concurrent
`terminate_execution` caller.  Atomic actions are the source statements
that touch shared state; the blocking calls between them
(`time.sleep(1)`, `process.wait(timeout=5)`) are genuine scheduling
points.  The ghost field `writes` records the history of values assigned
to `logs['status']`.
-/

/-- The test whose negation is `current_status not in ['timeout', 'terminated']`
(line 236). -/
def blockedStatus (st : Status) : Bool :=
  st = Status.timedOut ∨ st = Status.terminated

/-- The stderr line appended by the timeout path (line 226). -/
def timeoutLine : String := "Execution timed out and was terminated."

/-- The stderr line appended by `terminate_execution` (line 326). -/
def terminatedLine : String := "Execution was manually terminated."

/-- The stderr line appended on a non-zero natural exit (line 242). -/
def exitLine (rc : Int) : String :=
  "Process exited with return code " ++ toString rc

/-- Program counter of the monitor thread (`_monitor_process`), tracking
which statement it executes next:

* `atLoop` — the loop-top liveness poll `process.poll() is None`
  (line 214);
* `sawAlive` — the poll observed a live process; next is the elapsed-time
  check (line 216), which does not re-poll;
* `inBranch` — the timeout check fired; next is the kill block
  (lines 217-221);
* `killDone` — the kill block finished (the blocking `wait(timeout=5)`
  makes this a real scheduling point); next is the `'timeout'` status
  write (lines 223-227);
* `loopExited` — out of the while loop, either because a loop-top poll
  saw the process dead or after the timeout branch's `break`; next is
  the `return_code`/`current_status` read (lines 231-235);
* `readDone` — the read happened; next is the guarded status update
  (lines 236-243);
* `finished` — past the status update. -/
inductive MonPC where
  | atLoop
  | sawAlive
  | inBranch
  | killDone
  | loopExited
  | readDone
  | finished
deriving DecidableEq, Repr

/-- The monitor program counters at or past the loop exit. -/
def laterPC (pc : MonPC) : Prop :=
  pc = MonPC.loopExited ∨ pc = MonPC.readDone ∨ pc = MonPC.finished

/-- State of one job as seen by the monitor thread, one terminating
caller, and the external process. -/
structure MState where
  exitCode : Option Int
  status : Status
  stderrLog : List String
  writes : List Status
  tPolled : Bool
  tSignaled : Bool
  tWrote : Bool
  mpc : MonPC
  mSkip : Bool
  mTimeoutFired : Bool
  now : Nat
  start_time : Nat
  timeoutV : Nat
deriving DecidableEq, Repr

/-- Initial state right after `execute_nb5_command` registered the job:
process alive, status `running`, empty stderr, monitor at its loop top. -/
def initMState (startT timeoutV : Nat) : MState :=
  { exitCode := none, status := Status.running, stderrLog := [],
    writes := [], tPolled := false, tSignaled := false, tWrote := false,
    mpc := MonPC.atLoop, mSkip := false,
    mTimeoutFired := false, now := startT, start_time := startT,
    timeoutV := timeoutV }

/-- The atomic actions of the machine, one per shared-state statement:

* `tick` — wall-clock time advances;
* `procExit c` — the external process exits on its own with code `c`;
* `mPoll` — the monitor's loop-top liveness poll (line 214);
* `mCheck` — the monitor's elapsed-time check
  `timeout and (time.time() - start_time) > timeout` (line 216); on
  failure the monitor sleeps and loops back to the poll;
* `mKill` — the timeout branch's `terminate`/`wait(5)`/`kill` block
  (lines 217-221), after which the process is not alive;
* `mTimeoutWrite` — the timeout branch's status write and stderr append
  (lines 223-227), followed by `break`;
* `mRead` — the monitor reads `return_code` and `current_status`
  (lines 231-235);
* `mWrite` — the monitor's guarded status update (lines 236-243);
* `tPoll` — the terminating caller's `process.poll() is None` check
  (line 315);
* `tSignal` — its `terminate`/`wait`/`kill` block (lines 317-321);
* `tWrite` — its status update and stderr append (lines 323-327). -/
inductive MLabel where
  | tick
  | procExit (c : Int)
  | mPoll
  | mCheck
  | mKill
  | mTimeoutWrite
  | mRead
  | mWrite
  | tPoll
  | tSignal
  | tWrite
deriving DecidableEq, Repr

/-- One atomic action.  Disabled actions leave the state unchanged. -/
def mstep : MLabel → MState → MState
  | MLabel.tick, s => { s with now := s.now + 1 }
  | MLabel.procExit c, s =>
      if s.exitCode = none then { s with exitCode := some c } else s
  | MLabel.mPoll, s =>
      if s.mpc = MonPC.atLoop then
        if s.exitCode = none then { s with mpc := MonPC.sawAlive }
        else { s with mpc := MonPC.loopExited }
      else s
  | MLabel.mCheck, s =>
      if s.mpc = MonPC.sawAlive then
        if s.timeoutV ≠ 0 ∧ s.timeoutV < s.now - s.start_time then
          { s with mpc := MonPC.inBranch }
        else { s with mpc := MonPC.atLoop }
      else s
  | MLabel.mKill, s =>
      if s.mpc = MonPC.inBranch then
        { s with exitCode := some (s.exitCode.getD (-15)),
                 mpc := MonPC.killDone }
      else s
  | MLabel.mTimeoutWrite, s =>
      if s.mpc = MonPC.killDone then
        { s with status := Status.timedOut,
                 stderrLog := s.stderrLog ++ [timeoutLine],
                 writes := s.writes ++ [Status.timedOut],
                 mTimeoutFired := true, mpc := MonPC.loopExited }
      else s
  | MLabel.mRead, s =>
      if s.mpc = MonPC.loopExited then
        { s with mSkip := blockedStatus s.status, mpc := MonPC.readDone }
      else s
  | MLabel.mWrite, s =>
      if s.mpc = MonPC.readDone then
        if s.mSkip then { s with mpc := MonPC.finished }
        else
          match s.exitCode with
          | some rc =>
              if rc = 0 then
                { s with status := Status.completed,
                         writes := s.writes ++ [Status.completed],
                         mpc := MonPC.finished }
              else
                { s with status := Status.failed,
                         stderrLog := s.stderrLog ++ [exitLine rc],
                         writes := s.writes ++ [Status.failed],
                         mpc := MonPC.finished }
          | none => { s with mpc := MonPC.finished }
      else s
  | MLabel.tPoll, s =>
      if s.exitCode = none then { s with tPolled := true } else s
  | MLabel.tSignal, s =>
      if s.tPolled ∧ ¬s.tSignaled then
        { s with exitCode := some (s.exitCode.getD (-15)),
                 tSignaled := true }
      else s
  | MLabel.tWrite, s =>
      if s.tSignaled ∧ ¬s.tWrote then
        { s with status := Status.terminated,
                 stderrLog := s.stderrLog ++ [terminatedLine],
                 writes := s.writes ++ [Status.terminated],
                 tWrote := true }
      else s

/-- Run a schedule (list of atomic actions, executed left to right). -/
def mrun : List MLabel → MState → MState
  | [], s => s
  | l :: rest, s => mrun rest (mstep l s)

/-- Concrete witness for `terminate_after_exit_before_finalize`. -/
def c10Entry : ExecEntry :=
  { proc := { exitCode := some 0 }, command := "cmd", yamlPath := "t.yaml",
    start_time := 7, timeoutV := 600 }

/-- Concrete log entry for the C10 witness. -/
def c10Log : LogEntry := { stdout := ["line"], stderr := [], status := Status.running }

/-- Concrete state for the C10 witness. -/
def c10State : ExecState :=
  { active := [("nb5_7", c10Entry)], logs := [("nb5_7", c10Log)],
    tempFiles := ["t.yaml"] }

/-- A job started at millisecond 42 (spawn succeeds, process alive). -/
def c2Env : LaunchEnv :=
  { nb5Exists := true, nowMs := 42, startClock := 5, tempPath := "t1.yaml",
    spawn := Except.ok { exitCode := none } }

/-- Parameters for the C2 counterexample job. -/
def c2Params : ExecParams :=
  { yamlContent := "y", host := "h1", datacenter := "dc1", keyspace := "ks1",
    additionalParams := none, timeoutV := 600 }

/-- State after starting the job. -/
def c2Started : ExecState :=
  (execute_nb5_command "nb5.jar" ExecState.init c2Env c2Params).1

/-- State after the job exits with code 0, the monitor finalizes it as
`completed`, and the retention window expires (`delayed_cleanup` removes
it from `active_executions` while its logs remain). -/
def c2Evicted : ExecState :=
  delayed_cleanup (monitor_finalize (proc_exits c2Started "nb5_42" 0) "nb5_42")
    "nb5_42"

/-- Concrete entry for the C2 witness. -/
def c2wEntry : ExecEntry :=
  { proc := { exitCode := some 0 }, command := "cmd", yamlPath := "t.yaml",
    start_time := 3, timeoutV := 10 }

/-- Concrete log entry for the C2 witness. -/
def c2wLog : LogEntry :=
  { stdout := [], stderr := [], status := Status.completed }

/-- Concrete state for the C2 witness. -/
def c2wState : ExecState :=
  { active := [("nb5_3", c2wEntry)], logs := [("nb5_3", c2wLog)],
    tempFiles := [] }

/-- Launch environment whose spawn call fails, for the C5 witness. -/
def c5Env : LaunchEnv :=
  { nb5Exists := true, nowMs := 9, startClock := 9, tempPath := "t9.yaml",
    spawn := Except.error "spawn failed" }

/-- Second start drawing the same millisecond clock value as `c2Env`
but a different scratch file. -/
def c8Env2 : LaunchEnv :=
  { nb5Exists := true, nowMs := 42, startClock := 6, tempPath := "t2.yaml",
    spawn := Except.ok { exitCode := none } }

/-- Parameters of the second start (different host). -/
def c8Params2 : ExecParams :=
  { yamlContent := "y2", host := "h2", datacenter := "dc1", keyspace := "ks1",
    additionalParams := none, timeoutV := 600 }

/-- The entry registered for `nb5_42` by the first start. -/
def c8FirstEntry : ExecEntry :=
  { proc := { exitCode := none },
    command := generate_execution_command "nb5.jar" "t1.yaml" "h1" "dc1"
      "ks1" none,
    yamlPath := "t1.yaml", start_time := 5, timeoutV := 600 }

/-- The fresh log entry of the C6 witness job. -/
def c6Log : LogEntry := { stdout := [], stderr := [], status := Status.running }

/-- The log table of the C6 witness job. -/
def c6Logs : List (String × LogEntry) := [("e1", c6Log)]

/-- A running job 100 ticks past its start with a 50-tick timeout. -/
def c3State : MState := { initMState 0 50 with now := 100 }

/-- A running job whose process has exited with code 3, its monitor out
of the polling loop and about to finalize. -/
def c4State : MState :=
  { initMState 0 600 with exitCode := some 3, mpc := MonPC.loopExited }

/-! ### Finalization race analysis (C1) -/

/-- Shape constraints for a state whose status-write history holds exactly
one value `w`, recording which actor produced it and which guards are now
armed. -/
def WOne (w : Status) (s : MState) : Prop :=
  ((w = Status.completed ∨ w = Status.failed) ∧ s.mpc = MonPC.finished ∧
    s.tWrote = false ∧ s.mTimeoutFired = false)
  ∨ (w = Status.timedOut ∧ s.mTimeoutFired = true ∧ s.tWrote = false ∧
      (s.mpc = MonPC.readDone → s.mSkip = true))
  ∨ (w = Status.terminated ∧ s.tWrote = true ∧ s.mTimeoutFired = false)

/-- Shape constraints for a state with exactly two status writes `w` then
`v`: either a monitor-path write (exit classification or timeout stamp)
later overwritten by the terminate caller, or a terminate write later
overwritten by the monitor's exit classification or by its timeout
branch, whose liveness poll happened before the terminate call finished. -/
def WTwo (w v : Status) (s : MState) : Prop :=
  (v = Status.terminated ∧ s.tWrote = true ∧ s.status = Status.terminated ∧
    (((w = Status.completed ∨ w = Status.failed) ∧ s.mpc = MonPC.finished ∧
        s.mTimeoutFired = false)
      ∨ (w = Status.timedOut ∧ s.mTimeoutFired = true ∧
          (s.mpc = MonPC.readDone → s.mSkip = true))))
  ∨ (w = Status.terminated ∧ s.tWrote = true ∧
      (((v = Status.completed ∨ v = Status.failed) ∧
          s.mpc = MonPC.finished ∧ s.status = v ∧ s.mTimeoutFired = false)
        ∨ (v = Status.timedOut ∧ s.mTimeoutFired = true ∧
            s.status = Status.timedOut ∧
            (s.mpc = MonPC.readDone → s.mSkip = true))))

/-- The global finalization invariant of the interleaving machine. -/
def MInv (s : MState) : Prop :=
  (s.tSignaled = true → s.exitCode ≠ none) ∧
  (s.tWrote = true → s.tSignaled = true) ∧
  (laterPC s.mpc → s.exitCode ≠ none) ∧
  (s.mpc = MonPC.killDone → s.exitCode ≠ none) ∧
  (s.mTimeoutFired = true → laterPC s.mpc) ∧
  (match s.writes with
   | [] => s.status = Status.running ∧ s.tWrote = false ∧
           s.mTimeoutFired = false
   | [w] => s.status = w ∧ WOne w s
   | [w, v] => WTwo w v s
   | _ => False)

/-- The racing schedule of the C1 counterexample: the terminate caller
passes its liveness check (line 315), the process then exits naturally
with code 0, the monitor observes the exit and classifies it as
`completed` (lines 214, 231-243), and only then does the terminate
caller run its signalling block and its unconditional status write
(lines 317-327), recording a second terminal status `terminated` over
`completed`. -/
def c1Schedule : List MLabel :=
  [MLabel.tPoll, MLabel.procExit 0, MLabel.mPoll, MLabel.mRead,
   MLabel.mWrite, MLabel.tSignal, MLabel.tWrite]

/-- A schedule showing the converse timeout-path overwrite: the monitor's
loop-top poll sees the process alive and the elapsed check fires
(lines 214-216); before the branch's kill block and status write run
(lines 217-227, with the blocking `wait` in between), a concurrent
terminate call completes — kills the process and records `terminated` —
and the timeout branch, which never re-polls, then stamps `timeout` over
it. -/
def c1ScheduleTimeoutRace : List MLabel :=
  [MLabel.tick, MLabel.tick, MLabel.tick, MLabel.tick, MLabel.tick,
   MLabel.tick, MLabel.mPoll, MLabel.mCheck, MLabel.tPoll, MLabel.tSignal,
   MLabel.tWrite, MLabel.mKill, MLabel.mTimeoutWrite]

/-! ### Theorems -/

/-! ### Dictionary helper lemmas -/

theorem dictGet_dictSet_self {α : Type} (m : List (String × α)) (k : String)
    (v : α) : dictGet (dictSet m k v) k = some v := by
  induction m with
  | nil => simp [dictGet, dictSet]
  | cons p rest ih =>
      obtain ⟨k', w⟩ := p
      by_cases h : k' = k
      · simp [dictGet, dictSet, h]
      · simp [dictGet, dictSet, h, ih]

theorem dictGet_dictSet_ne {α : Type} (m : List (String × α)) (k j : String)
    (v : α) (h : j ≠ k) : dictGet (dictSet m k v) j = dictGet m j := by
  have hkj : ¬k = j := fun hh => h hh.symm
  induction m with
  | nil => simp [dictGet, dictSet, hkj]
  | cons p rest ih =>
      obtain ⟨k', w⟩ := p
      by_cases hk : k' = k
      · subst hk
        simp [dictGet, dictSet, hkj]
      · by_cases hj : k' = j <;> simp [dictGet, dictSet, hk, hj, h, ih]

/-! ### Claim theorems: registry-level operations -/

/-- C10: for a job whose process has already exited but whose monitor has
not yet recorded a terminal status, `terminate_execution` sends no signal,
does not set status `terminated`, appends nothing, and returns the current
status view, which still reports status `running` while `is_running` is
false. -/
theorem terminate_after_exit_before_finalize (st : ExecState)
    (execId : String) (e : ExecEntry) (l : LogEntry) (rc : Int)
    (ha : dictGet st.active execId = some e)
    (hx : e.proc.exitCode = some rc)
    (hl : dictGet st.logs execId = some l)
    (hs : l.status = Status.running) :
    terminate_execution st execId =
      (st, Except.ok { execution_id := execId, status := Status.running,
                       command := e.command, is_running := false,
                       stdout := l.stdout, stderr := l.stderr }) := by
  simp [terminate_execution, get_execution_status, ha, hl, hx, hs]

theorem terminate_after_exit_before_finalize_witness :
    dictGet c10State.active "nb5_7" = some c10Entry ∧
    c10Entry.proc.exitCode = some 0 ∧
    dictGet c10State.logs "nb5_7" = some c10Log ∧
    c10Log.status = Status.running ∧
    terminate_execution c10State "nb5_7" =
      (c10State, Except.ok { execution_id := "nb5_7", status := Status.running,
                             command := c10Entry.command, is_running := false,
                             stdout := c10Log.stdout, stderr := c10Log.stderr }) :=
  ⟨by decide, by decide, by decide, by decide,
   terminate_after_exit_before_finalize c10State "nb5_7" c10Entry c10Log 0
     (by decide) (by decide) (by decide) (by decide)⟩

/-- C2 counterexample: a job whose status is already terminal
(`completed`, still recorded in `execution_logs`) for which
`terminate_execution` does not return the frozen status — it raises the
not-found error, because the retention cleanup already removed the job
from `active_executions`. -/
theorem terminate_terminal_claim_counterexample :
    (dictGet c2Evicted.logs "nb5_42").map LogEntry.status =
      some Status.completed ∧
    (terminate_execution c2Evicted "nb5_42").2 =
      Except.error "Execution nb5_42 not found or already completed" :=
  ⟨rfl, rfl⟩

/-- C2 amended: for every job whose status is already terminal and which
is still present in `active_executions` (its process having exited, as on
every monitor-driven terminal path), `terminate_execution` is a no-op: it
returns the frozen status, sends no signal, and changes no state. -/
theorem terminate_terminal_active_noop (st : ExecState) (execId : String)
    (e : ExecEntry) (l : LogEntry) (rc : Int)
    (ha : dictGet st.active execId = some e)
    (hx : e.proc.exitCode = some rc)
    (hl : dictGet st.logs execId = some l)
    (_hs : l.status = Status.completed ∨ l.status = Status.failed ∨
          l.status = Status.timedOut ∨ l.status = Status.terminated ∨
          l.status = Status.error) :
    terminate_execution st execId =
      (st, Except.ok { execution_id := execId, status := l.status,
                       command := e.command, is_running := false,
                       stdout := l.stdout, stderr := l.stderr }) := by
  simp [terminate_execution, get_execution_status, ha, hl, hx]

theorem terminate_terminal_active_noop_witness :
    dictGet c2wState.active "nb5_3" = some c2wEntry ∧
    c2wEntry.proc.exitCode = some 0 ∧
    dictGet c2wState.logs "nb5_3" = some c2wLog ∧
    c2wLog.status = Status.completed ∧
    terminate_execution c2wState "nb5_3" =
      (c2wState, Except.ok { execution_id := "nb5_3",
                             status := c2wLog.status,
                             command := c2wEntry.command, is_running := false,
                             stdout := c2wLog.stdout,
                             stderr := c2wLog.stderr }) :=
  ⟨by decide, by decide, by decide, by decide,
   terminate_terminal_active_noop c2wState "nb5_3" c2wEntry c2wLog 0
     (by decide) (by decide) (by decide) (Or.inl (by decide))⟩

/-- C5: a launch that fails — missing jar (`validate_nb5_path` false) or a
spawn error from `Popen` — surfaces the failure synchronously as an error
result, registers nothing in `active_executions` or `execution_logs`, and
leaves no scratch yaml file behind. -/
theorem launch_failure_no_registration (nb5Path : String) (st : ExecState)
    (env : LaunchEnv) (p : ExecParams)
    (hf : env.nb5Exists = false ∨ ∃ m, env.spawn = Except.error m)
    (hfresh : env.tempPath ∉ st.tempFiles) :
    (execute_nb5_command nb5Path st env p).2.isOk = false ∧
    (execute_nb5_command nb5Path st env p).1.active = st.active ∧
    (execute_nb5_command nb5Path st env p).1.logs = st.logs ∧
    (execute_nb5_command nb5Path st env p).1.tempFiles = st.tempFiles ∧
    env.tempPath ∉ (execute_nb5_command nb5Path st env p).1.tempFiles := by
  rcases hf with h | ⟨m, h⟩
  · simp [execute_nb5_command, h, Except.isOk, Except.toBool, hfresh]
  · by_cases hj : env.nb5Exists = false
    · simp [execute_nb5_command, hj, Except.isOk, Except.toBool, hfresh]
    · simp [execute_nb5_command, hj, h, Except.isOk, Except.toBool, hfresh,
        List.erase_cons_head]

theorem launch_failure_no_registration_witness :
    (c5Env.nb5Exists = false ∨ ∃ m, c5Env.spawn = Except.error m) ∧
    c5Env.tempPath ∉ ExecState.init.tempFiles ∧
    ((execute_nb5_command "nb5.jar" ExecState.init c5Env c2Params).2.isOk
        = false ∧
     (execute_nb5_command "nb5.jar" ExecState.init c5Env c2Params).1.active
        = ExecState.init.active ∧
     (execute_nb5_command "nb5.jar" ExecState.init c5Env c2Params).1.logs
        = ExecState.init.logs ∧
     (execute_nb5_command "nb5.jar" ExecState.init c5Env c2Params).1.tempFiles
        = ExecState.init.tempFiles ∧
     c5Env.tempPath ∉
       (execute_nb5_command "nb5.jar" ExecState.init c5Env c2Params).1.tempFiles) :=
  ⟨Or.inr ⟨"spawn failed", rfl⟩, by decide,
   launch_failure_no_registration "nb5.jar" ExecState.init c5Env c2Params
     (Or.inr ⟨"spawn failed", rfl⟩) (by decide)⟩

/-- C8 counterexample: two `execute_nb5_command` calls within the same
wall-clock millisecond produce the same id `nb5_42`; the second call does
not fail with a duplicate-id error — it returns success and silently
replaces the first job's entry (the registered yaml path changes from
`t1.yaml` to `t2.yaml`). -/
theorem duplicate_id_claim_counterexample :
    (dictGet c2Started.active "nb5_42").map ExecEntry.yamlPath
      = some "t1.yaml" ∧
    (execute_nb5_command "nb5.jar" c2Started c8Env2 c8Params2).2.isOk
      = true ∧
    (dictGet (execute_nb5_command "nb5.jar" c2Started c8Env2
        c8Params2).1.active "nb5_42").map ExecEntry.yamlPath
      = some "t2.yaml" :=
  ⟨rfl, rfl, rfl⟩

/-- C8 amended: job ids are only as unique as the millisecond clock read;
registering a job whose id already exists raises no error at all — the
call succeeds and silently replaces the existing job's entries in both
the registry and the log table. -/
theorem duplicate_id_silent_replace (nb5Path : String) (st : ExecState)
    (env : LaunchEnv) (p : ExecParams) (proc : ProcHandle) (e0 : ExecEntry)
    (hjar : env.nb5Exists = true)
    (hspawn : env.spawn = Except.ok proc)
    (_hdup : dictGet st.active ("nb5_" ++ toString env.nowMs) = some e0) :
    (execute_nb5_command nb5Path st env p).2 =
      Except.ok { execution_id := "nb5_" ++ toString env.nowMs,
                  command := generate_execution_command nb5Path env.tempPath
                    p.host p.datacenter p.keyspace p.additionalParams,
                  status := Status.running } ∧
    dictGet (execute_nb5_command nb5Path st env p).1.active
        ("nb5_" ++ toString env.nowMs) =
      some { proc := proc,
             command := generate_execution_command nb5Path env.tempPath
               p.host p.datacenter p.keyspace p.additionalParams,
             yamlPath := env.tempPath, start_time := env.startClock,
             timeoutV := p.timeoutV } ∧
    dictGet (execute_nb5_command nb5Path st env p).1.logs
        ("nb5_" ++ toString env.nowMs) =
      some { stdout := [], stderr := [], status := Status.running } := by
  simp [execute_nb5_command, hjar, hspawn, dictGet_dictSet_self]

theorem duplicate_id_silent_replace_witness :
    c8Env2.nb5Exists = true ∧
    c8Env2.spawn = Except.ok { exitCode := none } ∧
    dictGet c2Started.active ("nb5_" ++ toString c8Env2.nowMs) =
      some c8FirstEntry ∧
    ((execute_nb5_command "nb5.jar" c2Started c8Env2 c8Params2).2 =
      Except.ok { execution_id := "nb5_" ++ toString c8Env2.nowMs,
                  command := generate_execution_command "nb5.jar"
                    c8Env2.tempPath c8Params2.host c8Params2.datacenter
                    c8Params2.keyspace c8Params2.additionalParams,
                  status := Status.running } ∧
    dictGet (execute_nb5_command "nb5.jar" c2Started c8Env2
        c8Params2).1.active ("nb5_" ++ toString c8Env2.nowMs) =
      some { proc := { exitCode := none },
             command := generate_execution_command "nb5.jar" c8Env2.tempPath
               c8Params2.host c8Params2.datacenter c8Params2.keyspace
               c8Params2.additionalParams,
             yamlPath := c8Env2.tempPath, start_time := c8Env2.startClock,
             timeoutV := c8Params2.timeoutV } ∧
    dictGet (execute_nb5_command "nb5.jar" c2Started c8Env2
        c8Params2).1.logs ("nb5_" ++ toString c8Env2.nowMs) =
      some { stdout := [], stderr := [], status := Status.running }) :=
  ⟨rfl, rfl, rfl,
   duplicate_id_silent_replace "nb5.jar" c2Started c8Env2 c8Params2
     { exitCode := none } c8FirstEntry rfl rfl rfl⟩

/-- C7: `list_executions` returns exactly one summary per job in the log
table (a permutation of the per-job summaries), ordered by the summary's
`start_time` descending, whatever the insertion order was. -/
theorem list_executions_sorted_complete (st : ExecState) :
    (list_executions st).Perm (st.logs.map (mkSummary st)) ∧
    List.Pairwise (fun a b : ExecSummary => b.start_time ≤ a.start_time)
      (list_executions st) := by
  refine ⟨List.mergeSort_perm _ _, ?_⟩
  have htrans : ∀ a b c : ExecSummary,
      (decide (b.start_time ≤ a.start_time)) = true →
      (decide (c.start_time ≤ b.start_time)) = true →
      (decide (c.start_time ≤ a.start_time)) = true := by
    intro a b c hab hbc
    simp only [decide_eq_true_eq] at *
    exact le_trans hbc hab
  have htotal : ∀ a b : ExecSummary,
      ((decide (b.start_time ≤ a.start_time)) ||
       (decide (a.start_time ≤ b.start_time))) = true := by
    intro a b
    simp only [Bool.or_eq_true, decide_eq_true_eq]
    exact Nat.le_total b.start_time a.start_time
  have h := @List.sorted_mergeSort ExecSummary
    (fun a b => decide (b.start_time ≤ a.start_time)) htrans htotal
    (st.logs.map (mkSummary st))
  exact h.imp (fun hab => by simpa using hab)

/-! ### Log capture (C6) -/

theorem appendAll_status (k : StreamKind) (ss : List String) :
    ∀ l : LogEntry, (appendAll l k ss).status = l.status := by
  induction ss with
  | nil => intro l; rfl
  | cons s ss ih =>
      intro l
      rw [appendAll, ih]
      cases k <;> rfl

theorem appendAll_out_stderr (ss : List String) :
    ∀ l : LogEntry, (appendAll l StreamKind.out ss).stderr = l.stderr := by
  induction ss with
  | nil => intro l; rfl
  | cons s ss ih =>
      intro l
      rw [appendAll, ih]
      rfl

theorem appendAll_err_stdout (ss : List String) :
    ∀ l : LogEntry, (appendAll l StreamKind.err ss).stdout = l.stdout := by
  induction ss with
  | nil => intro l; rfl
  | cons s ss ih =>
      intro l
      rw [appendAll, ih]
      rfl

theorem capture_error_spec (execId : String) (k : StreamKind) (m : String)
    (rest : List ReadEvent) :
    ∀ (pre : List String) (logs : List (String × LogEntry)) (l : LogEntry),
      dictGet logs execId = some l →
      (capture_output logs execId k
          (pre.map ReadEvent.line ++ ReadEvent.fail m :: rest)).2 =
        ["Error capturing " ++ streamName k ++ " for " ++ execId ++
          ": " ++ m] ∧
      dictGet (capture_output logs execId k
          (pre.map ReadEvent.line ++ ReadEvent.fail m :: rest)).1 execId =
        some (appendAll l k (pre.map pyRstrip)) ∧
      (∀ j, j ≠ execId →
        dictGet (capture_output logs execId k
            (pre.map ReadEvent.line ++ ReadEvent.fail m :: rest)).1 j =
          dictGet logs j) := by
  intro pre
  induction pre with
  | nil =>
      intro logs l hl
      refine ⟨by simp [capture_output], ?_, fun j hj => by simp [capture_output]⟩
      simpa [capture_output, appendAll] using hl
  | cons s pre ih =>
      intro logs l hl
      have hstep : capture_output logs execId k
          ((s :: pre).map ReadEvent.line ++ ReadEvent.fail m :: rest) =
          capture_output (dictSet logs execId (appendLine l k (pyRstrip s)))
            execId k (pre.map ReadEvent.line ++ ReadEvent.fail m :: rest) := by
        simp [capture_output, hl]
      have h2 := ih (dictSet logs execId (appendLine l k (pyRstrip s)))
        (appendLine l k (pyRstrip s)) (dictGet_dictSet_self _ _ _)
      rw [hstep]
      refine ⟨h2.1, ?_, ?_⟩
      · rw [h2.2.1]
        simp [appendAll]
      · intro j hj
        rw [h2.2.2 j hj, dictGet_dictSet_ne _ _ _ _ hj]

/-- C6 counterexample: a capture worker that reads one line and then hits
a read error leaves the job's own buffers without any synthetic error
line — the line `Error capturing stdout for e1: boom` goes to the
service logger (the second component) only, contradicting the claim that
it is recorded into the job's own log buffer. -/
theorem capture_error_claim_counterexample :
    capture_output
        [("e1", { stdout := [], stderr := [], status := Status.running })]
        "e1" StreamKind.out [ReadEvent.line "a\n", ReadEvent.fail "boom"] =
      ([("e1", { stdout := ["a"], stderr := [], status := Status.running })],
       ["Error capturing stdout for e1: boom"]) ∧
    "Error capturing stdout for e1: boom" ∉ (["a"] : List String) ∧
    "Error capturing stdout for e1: boom" ∉ ([] : List String) :=
  ⟨by decide, by decide, by decide⟩

/-- C6 amended: a capture worker that encounters a read error records the
synthetic error line through the service logger — not into the job's own
log buffer — and exits; the lines read before the error are appended (in
order, `rstrip`-ped) to that worker's own stream buffer, and the sibling
stream's buffer, the job's status, and every other job's logs are left
untouched. -/
theorem capture_error_to_logger (logs : List (String × LogEntry))
    (execId : String) (k : StreamKind) (m : String) (rest : List ReadEvent)
    (pre : List String) (l : LogEntry)
    (hl : dictGet logs execId = some l) :
    (capture_output logs execId k
        (pre.map ReadEvent.line ++ ReadEvent.fail m :: rest)).2 =
      ["Error capturing " ++ streamName k ++ " for " ++ execId ++
        ": " ++ m] ∧
    dictGet (capture_output logs execId k
        (pre.map ReadEvent.line ++ ReadEvent.fail m :: rest)).1 execId =
      some (appendAll l k (pre.map pyRstrip)) ∧
    (appendAll l k (pre.map pyRstrip)).status = l.status ∧
    (k = StreamKind.out →
      (appendAll l k (pre.map pyRstrip)).stderr = l.stderr) ∧
    (k = StreamKind.err →
      (appendAll l k (pre.map pyRstrip)).stdout = l.stdout) ∧
    (∀ j, j ≠ execId →
      dictGet (capture_output logs execId k
          (pre.map ReadEvent.line ++ ReadEvent.fail m :: rest)).1 j =
        dictGet logs j) := by
  obtain ⟨h1, h2, h3⟩ := capture_error_spec execId k m rest pre logs l hl
  exact ⟨h1, h2, appendAll_status k _ l,
    fun hk => by subst hk; exact appendAll_out_stderr _ l,
    fun hk => by subst hk; exact appendAll_err_stdout _ l, h3⟩

theorem capture_error_to_logger_witness :
    dictGet c6Logs "e1" = some c6Log ∧
    (capture_output c6Logs "e1" StreamKind.out
        (["a\n"].map ReadEvent.line ++ ReadEvent.fail "boom" :: [])).2 =
      ["Error capturing " ++ streamName StreamKind.out ++ " for " ++ "e1" ++
        ": " ++ "boom"] :=
  ⟨by decide,
   (capture_error_to_logger c6Logs "e1" StreamKind.out "boom" [] ["a\n"]
     c6Log (by decide)).1⟩

/-! ### Timeout supervisor and natural-exit classification (C3, C4, C9) -/

/-- C3: when the timeout is set (non-zero) and the process is still alive
once elapsed wall-clock time exceeds it, the monitor's timeout branch —
run here as its four source statements, poll, elapsed check, kill block,
status write — kills the process (gracefully then forcefully, collapsed
to the observable fact that the process ends up not alive), records
terminal status `timeout`, and appends the explanatory line to the job's
stderr log. -/
theorem timeout_supervisor_effect (s : MState)
    (hpc : s.mpc = MonPC.atLoop)
    (halive : s.exitCode = none) (hset : s.timeoutV ≠ 0)
    (hex : s.timeoutV < s.now - s.start_time) :
    (mrun [MLabel.mPoll, MLabel.mCheck, MLabel.mKill,
        MLabel.mTimeoutWrite] s).status = Status.timedOut ∧
    (mrun [MLabel.mPoll, MLabel.mCheck, MLabel.mKill,
        MLabel.mTimeoutWrite] s).exitCode = some (-15) ∧
    (mrun [MLabel.mPoll, MLabel.mCheck, MLabel.mKill,
        MLabel.mTimeoutWrite] s).stderrLog = s.stderrLog ++ [timeoutLine] ∧
    (mrun [MLabel.mPoll, MLabel.mCheck, MLabel.mKill,
        MLabel.mTimeoutWrite] s).writes = s.writes ++ [Status.timedOut] := by
  simp [mrun, mstep, hpc, halive, hset, hex]

theorem timeout_supervisor_effect_witness :
    c3State.mpc = MonPC.atLoop ∧
    c3State.exitCode = none ∧ c3State.timeoutV ≠ 0 ∧
    c3State.timeoutV < c3State.now - c3State.start_time ∧
    ((mrun [MLabel.mPoll, MLabel.mCheck, MLabel.mKill,
        MLabel.mTimeoutWrite] c3State).status = Status.timedOut ∧
     (mrun [MLabel.mPoll, MLabel.mCheck, MLabel.mKill,
        MLabel.mTimeoutWrite] c3State).exitCode = some (-15) ∧
     (mrun [MLabel.mPoll, MLabel.mCheck, MLabel.mKill,
        MLabel.mTimeoutWrite] c3State).stderrLog =
       c3State.stderrLog ++ [timeoutLine] ∧
     (mrun [MLabel.mPoll, MLabel.mCheck, MLabel.mKill,
        MLabel.mTimeoutWrite] c3State).writes =
       c3State.writes ++ [Status.timedOut]) :=
  ⟨by decide, by decide, by decide, by decide,
   timeout_supervisor_effect c3State (by decide) (by decide) (by decide)
     (by decide)⟩

/-- C4: a job finalized by the monitor's natural-exit path (status not
already `timeout` or `terminated`) is classified by its exit code: 0
yields `completed` with no stderr annotation, non-zero yields `failed`
with the return-code line appended to the job's stderr log. -/
theorem natural_exit_classification (s : MState) (rc : Int)
    (hx : s.exitCode = some rc) (hpc : s.mpc = MonPC.loopExited)
    (h1 : s.status ≠ Status.timedOut)
    (h2 : s.status ≠ Status.terminated) :
    (rc = 0 →
      (mstep MLabel.mWrite (mstep MLabel.mRead s)).status =
        Status.completed ∧
      (mstep MLabel.mWrite (mstep MLabel.mRead s)).stderrLog =
        s.stderrLog ∧
      (mstep MLabel.mWrite (mstep MLabel.mRead s)).writes =
        s.writes ++ [Status.completed]) ∧
    (rc ≠ 0 →
      (mstep MLabel.mWrite (mstep MLabel.mRead s)).status = Status.failed ∧
      (mstep MLabel.mWrite (mstep MLabel.mRead s)).stderrLog =
        s.stderrLog ++ [exitLine rc] ∧
      (mstep MLabel.mWrite (mstep MLabel.mRead s)).writes =
        s.writes ++ [Status.failed]) := by
  have hb : blockedStatus s.status = false := by
    simp [blockedStatus, h1, h2]
  constructor <;> intro h0 <;> simp [mstep, hx, hpc, hb, h0]

theorem natural_exit_classification_witness :
    c4State.exitCode = some 3 ∧ c4State.mpc = MonPC.loopExited ∧
    c4State.status ≠ Status.timedOut ∧
    c4State.status ≠ Status.terminated ∧
    ((3 : Int) ≠ 0 →
      (mstep MLabel.mWrite (mstep MLabel.mRead c4State)).status =
        Status.failed ∧
      (mstep MLabel.mWrite (mstep MLabel.mRead c4State)).stderrLog =
        c4State.stderrLog ++ [exitLine 3] ∧
      (mstep MLabel.mWrite (mstep MLabel.mRead c4State)).writes =
        c4State.writes ++ [Status.failed]) :=
  ⟨by decide, by decide, by decide, by decide,
   (natural_exit_classification c4State 3 (by decide) (by decide)
     (by decide) (by decide)).2⟩

theorem mstep_preserves_zero_timeout (l : MLabel) (s : MState)
    (h0 : s.timeoutV = 0) (hf : s.mTimeoutFired = false)
    (hw : Status.timedOut ∉ s.writes) (hs : s.status ≠ Status.timedOut)
    (hp1 : s.mpc ≠ MonPC.inBranch) (hp2 : s.mpc ≠ MonPC.killDone) :
    (mstep l s).timeoutV = 0 ∧ (mstep l s).mTimeoutFired = false ∧
    Status.timedOut ∉ (mstep l s).writes ∧
    (mstep l s).status ≠ Status.timedOut ∧
    (mstep l s).mpc ≠ MonPC.inBranch ∧
    (mstep l s).mpc ≠ MonPC.killDone := by
  cases l with
  | tick => simpa [mstep] using ⟨h0, hf, hw, hs, hp1, hp2⟩
  | procExit c =>
      cases hxc : s.exitCode <;>
        simp [mstep, hxc, h0, hf, hw, hs, hp1, hp2]
  | mPoll =>
      by_cases hpc : s.mpc = MonPC.atLoop
      · cases hxc : s.exitCode <;> simp [mstep, hpc, hxc, h0, hf, hw, hs]
      · simp [mstep, hpc, h0, hf, hw, hs, hp1, hp2]
  | mCheck =>
      by_cases hpc : s.mpc = MonPC.sawAlive
      · simp [mstep, hpc, h0, hf, hw, hs]
      · simp [mstep, hpc, h0, hf, hw, hs, hp1, hp2]
  | mKill => simp [mstep, hp1, h0, hf, hw, hs, hp2]
  | mTimeoutWrite => simp [mstep, hp2, h0, hf, hw, hs, hp1]
  | mRead =>
      by_cases hpc : s.mpc = MonPC.loopExited
      · simp [mstep, hpc, h0, hf, hw, hs]
      · simp [mstep, hpc, h0, hf, hw, hs, hp1, hp2]
  | mWrite =>
      by_cases hpc : s.mpc = MonPC.readDone
      · cases hsk : s.mSkip with
        | true => simp [mstep, hpc, hsk, h0, hf, hw, hs]
        | false =>
            cases hxc : s.exitCode with
            | none => simp [mstep, hpc, hsk, hxc, h0, hf, hw, hs]
            | some rc =>
                by_cases hrc : rc = 0 <;>
                  simp [mstep, hpc, hsk, hxc, hrc, h0, hf, hw, hs]
      · simp [mstep, hpc, h0, hf, hw, hs, hp1, hp2]
  | tPoll =>
      cases hxc : s.exitCode <;>
        simp [mstep, hxc, h0, hf, hw, hs, hp1, hp2]
  | tSignal =>
      cases ha : s.tPolled <;> cases hb : s.tSignaled <;>
        simp [mstep, ha, hb, h0, hf, hw, hs, hp1, hp2]
  | tWrite =>
      cases ha : s.tSignaled <;> cases hb : s.tWrote <;>
        simp [mstep, ha, hb, h0, hf, hw, hs, hp1, hp2]

theorem mrun_preserves_zero_timeout (sched : List MLabel) :
    ∀ s : MState, s.timeoutV = 0 → s.mTimeoutFired = false →
      Status.timedOut ∉ s.writes → s.status ≠ Status.timedOut →
      s.mpc ≠ MonPC.inBranch → s.mpc ≠ MonPC.killDone →
      (mrun sched s).timeoutV = 0 ∧ (mrun sched s).mTimeoutFired = false ∧
      Status.timedOut ∉ (mrun sched s).writes ∧
      (mrun sched s).status ≠ Status.timedOut ∧
      (mrun sched s).mpc ≠ MonPC.inBranch ∧
      (mrun sched s).mpc ≠ MonPC.killDone := by
  induction sched with
  | nil => intro s h0 hf hw hs hp1 hp2; exact ⟨h0, hf, hw, hs, hp1, hp2⟩
  | cons l rest ih =>
      intro s h0 hf hw hs hp1 hp2
      obtain ⟨a, b, c, d, e2, f2⟩ :=
        mstep_preserves_zero_timeout l s h0 hf hw hs hp1 hp2
      exact ih (mstep l s) a b c d e2 f2

/-- C9: for a job started with timeout 0 (falsy in the source's
`if timeout and ...` check), no schedule ever fires the timeout branch:
the process is never signalled by the timeout path and the status never
becomes `timeout`, regardless of elapsed time. -/
theorem zero_timeout_never_fires (sched : List MLabel) (startT : Nat) :
    (mrun sched (initMState startT 0)).mTimeoutFired = false ∧
    Status.timedOut ∉ (mrun sched (initMState startT 0)).writes ∧
    (mrun sched (initMState startT 0)).status ≠ Status.timedOut := by
  obtain ⟨-, b, c, d, -, -⟩ := mrun_preserves_zero_timeout sched
    (initMState startT 0) rfl rfl (by simp [initMState])
    (by simp [initMState]) (by simp [initMState]) (by simp [initMState])
  exact ⟨b, c, d⟩

theorem boolFalse_of_imp {b : Bool} {p : Prop} (h : b = true → p)
    (hnp : ¬p) : b = false := by
  cases hv : b
  · rfl
  · exact absurd (h hv) hnp

theorem shape_early_move (s : MState) (pc' : MonPC) (x : Option Int)
    (hfired : s.mTimeoutFired = false) (hnf : s.mpc ≠ MonPC.finished)
    (h6 : match s.writes with
          | [] => s.status = Status.running ∧ s.tWrote = false ∧
                  s.mTimeoutFired = false
          | [w] => s.status = w ∧ WOne w s
          | [w, v] => WTwo w v s
          | _ => False) :
    (match s.writes with
     | [] => s.status = Status.running ∧ s.tWrote = false ∧
             s.mTimeoutFired = false
     | [w] => s.status = w ∧ WOne w { s with mpc := pc', exitCode := x }
     | [w, v] => WTwo w v { s with mpc := pc', exitCode := x }
     | _ => False) := by
  rcases hwr : s.writes with _ | ⟨w, _ | ⟨v, _ | ⟨y, tl⟩⟩⟩
  · rw [hwr] at h6
    exact h6
  · rw [hwr] at h6
    obtain ⟨hst, hone⟩ := h6
    refine ⟨hst, ?_⟩
    rcases hone with ⟨hcf, hfin, htw, hmf⟩ | ⟨hwt, hfired2, htw, himp⟩ |
      ⟨hwt, htw, hmf⟩
    · exact absurd hfin hnf
    · exact absurd hfired2 (by simp [hfired])
    · exact Or.inr (Or.inr ⟨hwt, htw, hmf⟩)
  · rw [hwr] at h6
    rcases h6 with ⟨hv, htw, hstat, hsub⟩ | ⟨hw, htw, hsub⟩
    · rcases hsub with ⟨hcf, hfin, hmf⟩ | ⟨hwt, hfired2, himp⟩
      · exact absurd hfin hnf
      · exact absurd hfired2 (by simp [hfired])
    · rcases hsub with ⟨hcf2, hfin, hstat2, hmf⟩ |
        ⟨hvt, hfired2, hstat2, himp⟩
      · exact absurd hfin hnf
      · exact absurd hfired2 (by simp [hfired])
  · rw [hwr] at h6
    exact h6.elim

theorem MInv_tick (s : MState) (h : MInv s) :
    MInv (mstep MLabel.tick s) := h

theorem MInv_procExit (c : Int) (s : MState) (h : MInv s) :
    MInv (mstep (MLabel.procExit c) s) := by
  obtain ⟨i1, i2, i3, i4, i5, i6⟩ := h
  cases hxc : s.exitCode with
  | some rc =>
      have e : mstep (MLabel.procExit c) s = s := by simp [mstep, hxc]
      rw [e]
      exact ⟨i1, i2, i3, i4, i5, i6⟩
  | none =>
      have e : mstep (MLabel.procExit c) s =
          { s with exitCode := some c } := by simp [mstep, hxc]
      rw [e]
      exact ⟨fun _ => by simp, i2, fun _ => by simp, fun _ => by simp,
        i5, i6⟩

theorem MInv_tPoll (s : MState) (h : MInv s) :
    MInv (mstep MLabel.tPoll s) := by
  obtain ⟨i1, i2, i3, i4, i5, i6⟩ := h
  cases hxc : s.exitCode with
  | some rc =>
      have e : mstep MLabel.tPoll s = s := by simp [mstep, hxc]
      rw [e]
      exact ⟨i1, i2, i3, i4, i5, i6⟩
  | none =>
      have e : mstep MLabel.tPoll s = { s with tPolled := true } := by
        simp [mstep, hxc]
      rw [e]
      exact ⟨i1, i2, i3, i4, i5, i6⟩

theorem MInv_tSignal (s : MState) (h : MInv s) :
    MInv (mstep MLabel.tSignal s) := by
  obtain ⟨i1, i2, i3, i4, i5, i6⟩ := h
  cases ha : s.tPolled with
  | false =>
      have e : mstep MLabel.tSignal s = s := by simp [mstep, ha]
      rw [e]
      exact ⟨i1, i2, i3, i4, i5, i6⟩
  | true =>
      cases hb : s.tSignaled with
      | true =>
          have e : mstep MLabel.tSignal s = s := by simp [mstep, ha, hb]
          rw [e]
          exact ⟨i1, i2, i3, i4, i5, i6⟩
      | false =>
          have e : mstep MLabel.tSignal s =
              { s with exitCode := some (s.exitCode.getD (-15)),
                       tSignaled := true } := by
            simp [mstep, ha, hb]
          rw [e]
          exact ⟨fun _ => by simp, fun _ => rfl, fun _ => by simp,
            fun _ => by simp, i5, i6⟩

theorem MInv_mPoll (s : MState) (h : MInv s) :
    MInv (mstep MLabel.mPoll s) := by
  obtain ⟨i1, i2, i3, i4, i5, i6⟩ := h
  by_cases hpc : s.mpc = MonPC.atLoop
  · have hfired : s.mTimeoutFired = false :=
      boolFalse_of_imp i5 (by rw [hpc]; simp [laterPC])
    have hnf : s.mpc ≠ MonPC.finished := by rw [hpc]; simp
    cases hxc : s.exitCode with
    | none =>
        have e : mstep MLabel.mPoll s =
            { s with mpc := MonPC.sawAlive } := by simp [mstep, hpc, hxc]
        rw [e]
        exact ⟨i1, i2, fun hl => absurd hl (by simp [laterPC]),
          fun hk => MonPC.noConfusion hk,
          fun hv => absurd hv (by simp [hfired]),
          shape_early_move s MonPC.sawAlive s.exitCode hfired hnf i6⟩
    | some rc =>
        have e : mstep MLabel.mPoll s =
            { s with mpc := MonPC.loopExited } := by simp [mstep, hpc, hxc]
        rw [e]
        exact ⟨i1, i2, fun _ => by simp [hxc],
          fun hk => MonPC.noConfusion hk,
          fun hv => absurd hv (by simp [hfired]),
          shape_early_move s MonPC.loopExited s.exitCode hfired hnf i6⟩
  · have e : mstep MLabel.mPoll s = s := by simp [mstep, hpc]
    rw [e]
    exact ⟨i1, i2, i3, i4, i5, i6⟩

theorem MInv_mCheck (s : MState) (h : MInv s) :
    MInv (mstep MLabel.mCheck s) := by
  obtain ⟨i1, i2, i3, i4, i5, i6⟩ := h
  by_cases hpc : s.mpc = MonPC.sawAlive
  · have hfired : s.mTimeoutFired = false :=
      boolFalse_of_imp i5 (by rw [hpc]; simp [laterPC])
    have hnf : s.mpc ≠ MonPC.finished := by rw [hpc]; simp
    by_cases hcond : s.timeoutV ≠ 0 ∧ s.timeoutV < s.now - s.start_time
    · have e : mstep MLabel.mCheck s =
          { s with mpc := MonPC.inBranch } := by
        simp only [mstep]
        rw [if_pos hpc, if_pos hcond]
      rw [e]
      exact ⟨i1, i2, fun hl => absurd hl (by simp [laterPC]),
        fun hk => MonPC.noConfusion hk,
        fun hv => absurd hv (by simp [hfired]),
        shape_early_move s MonPC.inBranch s.exitCode hfired hnf i6⟩
    · have e : mstep MLabel.mCheck s =
          { s with mpc := MonPC.atLoop } := by
        simp only [mstep]
        rw [if_pos hpc, if_neg hcond]
      rw [e]
      exact ⟨i1, i2, fun hl => absurd hl (by simp [laterPC]),
        fun hk => MonPC.noConfusion hk,
        fun hv => absurd hv (by simp [hfired]),
        shape_early_move s MonPC.atLoop s.exitCode hfired hnf i6⟩
  · have e : mstep MLabel.mCheck s = s := by simp [mstep, hpc]
    rw [e]
    exact ⟨i1, i2, i3, i4, i5, i6⟩

theorem MInv_mKill (s : MState) (h : MInv s) :
    MInv (mstep MLabel.mKill s) := by
  obtain ⟨i1, i2, i3, i4, i5, i6⟩ := h
  by_cases hpc : s.mpc = MonPC.inBranch
  · have hfired : s.mTimeoutFired = false :=
      boolFalse_of_imp i5 (by rw [hpc]; simp [laterPC])
    have hnf : s.mpc ≠ MonPC.finished := by rw [hpc]; simp
    have e : mstep MLabel.mKill s =
        { s with exitCode := some (s.exitCode.getD (-15)),
                 mpc := MonPC.killDone } := by simp [mstep, hpc]
    rw [e]
    exact ⟨fun _ => by simp, i2, fun hl => absurd hl (by simp [laterPC]),
      fun _ => by simp, fun hv => absurd hv (by simp [hfired]),
      shape_early_move s MonPC.killDone (some (s.exitCode.getD (-15)))
        hfired hnf i6⟩
  · have e : mstep MLabel.mKill s = s := by simp [mstep, hpc]
    rw [e]
    exact ⟨i1, i2, i3, i4, i5, i6⟩

theorem MInv_mTimeoutWrite (s : MState) (h : MInv s) :
    MInv (mstep MLabel.mTimeoutWrite s) := by
  obtain ⟨i1, i2, i3, i4, i5, i6⟩ := h
  by_cases hpc : s.mpc = MonPC.killDone
  · have hfired : s.mTimeoutFired = false :=
      boolFalse_of_imp i5 (by rw [hpc]; simp [laterPC])
    have hxc : s.exitCode ≠ none := i4 hpc
    rcases hwr : s.writes with _ | ⟨w, _ | ⟨v, _ | ⟨y, tl⟩⟩⟩
    · rw [hwr] at i6
      obtain ⟨hst, htw, hmf⟩ := i6
      have e : mstep MLabel.mTimeoutWrite s =
          { s with status := Status.timedOut,
                   stderrLog := s.stderrLog ++ [timeoutLine],
                   writes := [Status.timedOut],
                   mTimeoutFired := true, mpc := MonPC.loopExited } := by
        simp only [mstep]
        rw [if_pos hpc, hwr]
        rfl
      rw [e]
      refine ⟨i1, i2, fun _ => hxc, fun hk => MonPC.noConfusion hk,
        fun _ => Or.inl rfl, ?_⟩
      exact ⟨rfl, Or.inr (Or.inl ⟨rfl, rfl, htw,
        fun hr => MonPC.noConfusion hr⟩)⟩
    · rw [hwr] at i6
      obtain ⟨hst, hone⟩ := i6
      rcases hone with ⟨hcf, hfin, htw, hmf⟩ | ⟨hwt, hfired2, htw, himp⟩ |
        ⟨hwt, htw, hmf⟩
      · exact MonPC.noConfusion (hpc.symm.trans hfin)
      · exact absurd hfired2 (by simp [hfired])
      · have e : mstep MLabel.mTimeoutWrite s =
            { s with status := Status.timedOut,
                     stderrLog := s.stderrLog ++ [timeoutLine],
                     writes := [w, Status.timedOut],
                     mTimeoutFired := true, mpc := MonPC.loopExited } := by
          simp only [mstep]
          rw [if_pos hpc, hwr]
          rfl
        rw [e]
        refine ⟨i1, i2, fun _ => hxc, fun hk => MonPC.noConfusion hk,
          fun _ => Or.inl rfl, ?_⟩
        exact Or.inr ⟨hwt, htw, Or.inr ⟨rfl, rfl, rfl,
          fun hr => MonPC.noConfusion hr⟩⟩
    · rw [hwr] at i6
      rcases i6 with ⟨hv, htw, hstat, hsub⟩ | ⟨hw, htw, hsub⟩
      · rcases hsub with ⟨hcf, hfin, hmf⟩ | ⟨hwt, hfired2, himp⟩
        · exact MonPC.noConfusion (hpc.symm.trans hfin)
        · exact absurd hfired2 (by simp [hfired])
      · rcases hsub with ⟨hcf2, hfin, hstat2, hmf⟩ |
          ⟨hvt, hfired2, hstat2, himp⟩
        · exact MonPC.noConfusion (hpc.symm.trans hfin)
        · exact absurd hfired2 (by simp [hfired])
    · rw [hwr] at i6
      exact i6.elim
  · have e : mstep MLabel.mTimeoutWrite s = s := by simp [mstep, hpc]
    rw [e]
    exact ⟨i1, i2, i3, i4, i5, i6⟩

theorem MInv_mRead (s : MState) (h : MInv s) :
    MInv (mstep MLabel.mRead s) := by
  obtain ⟨i1, i2, i3, i4, i5, i6⟩ := h
  by_cases hpc : s.mpc = MonPC.loopExited
  · have hxc : s.exitCode ≠ none := i3 (Or.inl hpc)
    have e : mstep MLabel.mRead s =
        { s with mSkip := blockedStatus s.status,
                 mpc := MonPC.readDone } := by simp [mstep, hpc]
    rw [e]
    refine ⟨i1, i2, fun _ => hxc, fun hk => MonPC.noConfusion hk,
      fun _ => Or.inr (Or.inl rfl), ?_⟩
    rcases hwr : s.writes with _ | ⟨w, _ | ⟨v, _ | ⟨y, tl⟩⟩⟩
    · rw [hwr] at i6
      obtain ⟨hst, htw, hmf⟩ := i6
      exact ⟨hst, htw, hmf⟩
    · rw [hwr] at i6
      obtain ⟨hst, hone⟩ := i6
      refine ⟨hst, ?_⟩
      rcases hone with ⟨hcf, hfin, htw, hmf⟩ | ⟨hwt, hfired2, htw, himp⟩ |
        ⟨hwt, htw, hmf⟩
      · exact MonPC.noConfusion (hpc.symm.trans hfin)
      · exact Or.inr (Or.inl ⟨hwt, hfired2, htw,
          fun _ => by simp [blockedStatus, hst, hwt]⟩)
      · exact Or.inr (Or.inr ⟨hwt, htw, hmf⟩)
    · rw [hwr] at i6
      rcases i6 with ⟨hv, htw, hstat, hsub⟩ | ⟨hw, htw, hsub⟩
      · refine Or.inl ⟨hv, htw, hstat, ?_⟩
        rcases hsub with ⟨hcf, hfin, hmf⟩ | ⟨hwt, hfired2, himp⟩
        · exact MonPC.noConfusion (hpc.symm.trans hfin)
        · exact Or.inr ⟨hwt, hfired2,
            fun _ => by simp [blockedStatus, hstat]⟩
      · refine Or.inr ⟨hw, htw, ?_⟩
        rcases hsub with ⟨hcf2, hfin, hstat2, hmf⟩ |
          ⟨hvt, hfired2, hstat2, himp⟩
        · exact MonPC.noConfusion (hpc.symm.trans hfin)
        · exact Or.inr ⟨hvt, hfired2, hstat2,
            fun _ => by simp [blockedStatus, hstat2]⟩
    · rw [hwr] at i6
      exact i6.elim
  · have e : mstep MLabel.mRead s = s := by simp [mstep, hpc]
    rw [e]
    exact ⟨i1, i2, i3, i4, i5, i6⟩

theorem MInv_mWrite (s : MState) (h : MInv s) :
    MInv (mstep MLabel.mWrite s) := by
  obtain ⟨i1, i2, i3, i4, i5, i6⟩ := h
  by_cases hpc : s.mpc = MonPC.readDone
  · have hxcn : s.exitCode ≠ none := i3 (Or.inr (Or.inl hpc))
    cases hsk : s.mSkip with
    | true =>
        have e : mstep MLabel.mWrite s =
            { s with mpc := MonPC.finished } := by simp [mstep, hpc, hsk]
        rw [e]
        refine ⟨i1, i2, fun _ => hxcn, fun hk => MonPC.noConfusion hk,
          fun _ => Or.inr (Or.inr rfl), ?_⟩
        rcases hwr : s.writes with _ | ⟨w, _ | ⟨v, _ | ⟨y, tl⟩⟩⟩
        · rw [hwr] at i6
          obtain ⟨hst, htw, hmf⟩ := i6
          exact ⟨hst, htw, hmf⟩
        · rw [hwr] at i6
          obtain ⟨hst, hone⟩ := i6
          refine ⟨hst, ?_⟩
          rcases hone with ⟨hcf, hfin, htw, hmf⟩ |
            ⟨hwt, hfired2, htw, himp⟩ | ⟨hwt, htw, hmf⟩
          · exact MonPC.noConfusion (hpc.symm.trans hfin)
          · exact Or.inr (Or.inl ⟨hwt, hfired2, htw,
              fun hr => MonPC.noConfusion hr⟩)
          · exact Or.inr (Or.inr ⟨hwt, htw, hmf⟩)
        · rw [hwr] at i6
          rcases i6 with ⟨hv, htw, hstat, hsub⟩ | ⟨hw, htw, hsub⟩
          · refine Or.inl ⟨hv, htw, hstat, ?_⟩
            rcases hsub with ⟨hcf, hfin, hmf⟩ | ⟨hwt, hfired2, himp⟩
            · exact MonPC.noConfusion (hpc.symm.trans hfin)
            · exact Or.inr ⟨hwt, hfired2, fun hr => MonPC.noConfusion hr⟩
          · refine Or.inr ⟨hw, htw, ?_⟩
            rcases hsub with ⟨hcf2, hfin, hstat2, hmf⟩ |
              ⟨hvt, hfired2, hstat2, himp⟩
            · exact MonPC.noConfusion (hpc.symm.trans hfin)
            · exact Or.inr ⟨hvt, hfired2, hstat2,
                fun hr => MonPC.noConfusion hr⟩
        · rw [hwr] at i6
          exact i6.elim
    | false =>
        cases hxc : s.exitCode with
        | none => exact absurd hxc hxcn
        | some rc =>
            by_cases hrc : rc = 0
            · rcases hwr : s.writes with _ | ⟨w, _ | ⟨v, _ | ⟨y, tl⟩⟩⟩
              · rw [hwr] at i6
                obtain ⟨hst, htw, hmf⟩ := i6
                have e : mstep MLabel.mWrite s =
                    { s with status := Status.completed,
                             writes := [Status.completed],
                             mpc := MonPC.finished } := by
                  simp [mstep, hpc, hsk, hxc, hrc, hwr]
                rw [e]
                refine ⟨i1, i2, fun _ => by simp [hxc],
                  fun hk => MonPC.noConfusion hk,
                  fun _ => Or.inr (Or.inr rfl), ?_⟩
                exact ⟨rfl, Or.inl ⟨Or.inl rfl, rfl, htw, hmf⟩⟩
              · rw [hwr] at i6
                obtain ⟨hst, hone⟩ := i6
                rcases hone with ⟨hcf, hfin, htw, hmf⟩ |
                  ⟨hwt, hfired2, htw, himp⟩ | ⟨hwt, htw, hmf⟩
                · exact MonPC.noConfusion (hpc.symm.trans hfin)
                · exact absurd (himp hpc) (by simp [hsk])
                · have e : mstep MLabel.mWrite s =
                      { s with status := Status.completed,
                               writes := [w, Status.completed],
                               mpc := MonPC.finished } := by
                    simp [mstep, hpc, hsk, hxc, hrc, hwr]
                  rw [e]
                  refine ⟨i1, i2, fun _ => by simp [hxc],
                    fun hk => MonPC.noConfusion hk,
                    fun _ => Or.inr (Or.inr rfl), ?_⟩
                  exact Or.inr ⟨hwt, htw,
                    Or.inl ⟨Or.inl rfl, rfl, rfl, hmf⟩⟩
              · rw [hwr] at i6
                rcases i6 with ⟨hv, htw, hstat, hsub⟩ | ⟨hw, htw, hsub⟩
                · rcases hsub with ⟨hcf, hfin, hmf⟩ | ⟨hwt, hfired2, himp⟩
                  · exact MonPC.noConfusion (hpc.symm.trans hfin)
                  · exact absurd (himp hpc) (by simp [hsk])
                · rcases hsub with ⟨hcf2, hfin, hstat2, hmf⟩ |
                    ⟨hvt, hfired2, hstat2, himp⟩
                  · exact MonPC.noConfusion (hpc.symm.trans hfin)
                  · exact absurd (himp hpc) (by simp [hsk])
              · rw [hwr] at i6
                exact i6.elim
            · rcases hwr : s.writes with _ | ⟨w, _ | ⟨v, _ | ⟨y, tl⟩⟩⟩
              · rw [hwr] at i6
                obtain ⟨hst, htw, hmf⟩ := i6
                have e : mstep MLabel.mWrite s =
                    { s with status := Status.failed,
                             stderrLog := s.stderrLog ++ [exitLine rc],
                             writes := [Status.failed],
                             mpc := MonPC.finished } := by
                  simp [mstep, hpc, hsk, hxc, hrc, hwr]
                rw [e]
                refine ⟨i1, i2, fun _ => by simp [hxc],
                  fun hk => MonPC.noConfusion hk,
                  fun _ => Or.inr (Or.inr rfl), ?_⟩
                exact ⟨rfl, Or.inl ⟨Or.inr rfl, rfl, htw, hmf⟩⟩
              · rw [hwr] at i6
                obtain ⟨hst, hone⟩ := i6
                rcases hone with ⟨hcf, hfin, htw, hmf⟩ |
                  ⟨hwt, hfired2, htw, himp⟩ | ⟨hwt, htw, hmf⟩
                · exact MonPC.noConfusion (hpc.symm.trans hfin)
                · exact absurd (himp hpc) (by simp [hsk])
                · have e : mstep MLabel.mWrite s =
                      { s with status := Status.failed,
                               stderrLog := s.stderrLog ++ [exitLine rc],
                               writes := [w, Status.failed],
                               mpc := MonPC.finished } := by
                    simp [mstep, hpc, hsk, hxc, hrc, hwr]
                  rw [e]
                  refine ⟨i1, i2, fun _ => by simp [hxc],
                    fun hk => MonPC.noConfusion hk,
                    fun _ => Or.inr (Or.inr rfl), ?_⟩
                  exact Or.inr ⟨hwt, htw,
                    Or.inl ⟨Or.inr rfl, rfl, rfl, hmf⟩⟩
              · rw [hwr] at i6
                rcases i6 with ⟨hv, htw, hstat, hsub⟩ | ⟨hw, htw, hsub⟩
                · rcases hsub with ⟨hcf, hfin, hmf⟩ | ⟨hwt, hfired2, himp⟩
                  · exact MonPC.noConfusion (hpc.symm.trans hfin)
                  · exact absurd (himp hpc) (by simp [hsk])
                · rcases hsub with ⟨hcf2, hfin, hstat2, hmf⟩ |
                    ⟨hvt, hfired2, hstat2, himp⟩
                  · exact MonPC.noConfusion (hpc.symm.trans hfin)
                  · exact absurd (himp hpc) (by simp [hsk])
              · rw [hwr] at i6
                exact i6.elim
  · have e : mstep MLabel.mWrite s = s := by simp [mstep, hpc]
    rw [e]
    exact ⟨i1, i2, i3, i4, i5, i6⟩

theorem MInv_tWrite (s : MState) (h : MInv s) :
    MInv (mstep MLabel.tWrite s) := by
  obtain ⟨i1, i2, i3, i4, i5, i6⟩ := h
  cases ha : s.tSignaled with
  | false =>
      have e : mstep MLabel.tWrite s = s := by simp [mstep, ha]
      rw [e]
      exact ⟨i1, i2, i3, i4, i5, i6⟩
  | true =>
      cases hb : s.tWrote with
      | true =>
          have e : mstep MLabel.tWrite s = s := by simp [mstep, hb]
          rw [e]
          exact ⟨i1, i2, i3, i4, i5, i6⟩
      | false =>
          rcases hwr : s.writes with _ | ⟨w, _ | ⟨v, _ | ⟨y, tl⟩⟩⟩
          · rw [hwr] at i6
            obtain ⟨hst, htw, hmf⟩ := i6
            have e : mstep MLabel.tWrite s =
                { s with status := Status.terminated,
                         stderrLog := s.stderrLog ++ [terminatedLine],
                         writes := [Status.terminated],
                         tWrote := true } := by
              simp [mstep, ha, hb, hwr]
            rw [e]
            refine ⟨i1, fun _ => ha, i3, i4, i5, ?_⟩
            exact ⟨rfl, Or.inr (Or.inr ⟨rfl, rfl, hmf⟩)⟩
          · rw [hwr] at i6
            obtain ⟨hst, hone⟩ := i6
            have e : mstep MLabel.tWrite s =
                { s with status := Status.terminated,
                         stderrLog := s.stderrLog ++ [terminatedLine],
                         writes := [w, Status.terminated],
                         tWrote := true } := by
              simp [mstep, ha, hb, hwr]
            rw [e]
            refine ⟨i1, fun _ => ha, i3, i4, i5, ?_⟩
            rcases hone with ⟨hcf, hfin, htw, hmf⟩ |
              ⟨hwt, hfired2, htw, himp⟩ | ⟨hwt, htw, hmf⟩
            · exact Or.inl ⟨rfl, rfl, rfl, Or.inl ⟨hcf, hfin, hmf⟩⟩
            · exact Or.inl ⟨rfl, rfl, rfl, Or.inr ⟨hwt, hfired2, himp⟩⟩
            · exact absurd htw (by simp [hb])
          · rw [hwr] at i6
            rcases i6 with ⟨hv, htw, hstat, hsub⟩ | ⟨hw, htw, hsub⟩
            · exact absurd htw (by simp [hb])
            · exact absurd htw (by simp [hb])
          · rw [hwr] at i6
            exact i6.elim

theorem MInv_mstep (l : MLabel) (s : MState) (h : MInv s) :
    MInv (mstep l s) := by
  cases l with
  | tick => exact MInv_tick s h
  | procExit c => exact MInv_procExit c s h
  | mPoll => exact MInv_mPoll s h
  | mCheck => exact MInv_mCheck s h
  | mKill => exact MInv_mKill s h
  | mTimeoutWrite => exact MInv_mTimeoutWrite s h
  | mRead => exact MInv_mRead s h
  | mWrite => exact MInv_mWrite s h
  | tPoll => exact MInv_tPoll s h
  | tSignal => exact MInv_tSignal s h
  | tWrite => exact MInv_tWrite s h

theorem MInv_mrun (sched : List MLabel) :
    ∀ s : MState, MInv s → MInv (mrun sched s) := by
  induction sched with
  | nil => intro s h; exact h
  | cons l rest ih => intro s h; exact ih (mstep l s) (MInv_mstep l s h)

theorem MInv_init (startT tv : Nat) : MInv (initMState startT tv) := by
  simp [MInv, initMState, laterPC]

/-- C1 amended: finalization is not exactly-once under races; instead, a
job's status history over every interleaving satisfies: the monitor's
paths (natural-exit classification or timeout stamp) record at most one
terminal status between them, a concurrent manual terminate records at
most one `terminated`, and when both record, the history is either
`[w, terminated]` (a monitor write overwritten by terminate) or
`[terminated, v]` (a terminate write overwritten by the monitor's exit
classification, or by its timeout branch whose liveness poll preceded
the terminate call); so up to two terminal statuses, the last write
winning, and the status never reverts to `running`. -/
theorem finalization_writes_characterization (sched : List MLabel)
    (startT tv : Nat) :
    ((mrun sched (initMState startT tv)).writes = [] ∧
      (mrun sched (initMState startT tv)).status = Status.running) ∨
    (∃ w, (mrun sched (initMState startT tv)).writes = [w] ∧
      (mrun sched (initMState startT tv)).status = w ∧
      w ≠ Status.running) ∨
    (∃ w, (mrun sched (initMState startT tv)).writes =
        [w, Status.terminated] ∧
      (mrun sched (initMState startT tv)).status = Status.terminated ∧
      (w = Status.completed ∨ w = Status.failed ∨ w = Status.timedOut)) ∨
    (∃ v, (mrun sched (initMState startT tv)).writes =
        [Status.terminated, v] ∧
      (mrun sched (initMState startT tv)).status = v ∧
      (v = Status.completed ∨ v = Status.failed ∨ v = Status.timedOut)) := by
  obtain ⟨i1, i2, i3, i4, i5, i6⟩ :=
    MInv_mrun sched (initMState startT tv) (MInv_init startT tv)
  rcases hwr : (mrun sched (initMState startT tv)).writes with
    _ | ⟨w, _ | ⟨v, _ | ⟨x, tl⟩⟩⟩
  · rw [hwr] at i6
    exact Or.inl ⟨rfl, i6.1⟩
  · rw [hwr] at i6
    obtain ⟨hst, hone⟩ := i6
    refine Or.inr (Or.inl ⟨w, rfl, hst, ?_⟩)
    rcases hone with ⟨hcf, -, -, -⟩ | ⟨hwt, -, -, -⟩ | ⟨hwt, -, -⟩
    · rcases hcf with hc | hf
      · rw [hc]; intro hh; exact Status.noConfusion hh
      · rw [hf]; intro hh; exact Status.noConfusion hh
    · rw [hwt]; intro hh; exact Status.noConfusion hh
    · rw [hwt]; intro hh; exact Status.noConfusion hh
  · rw [hwr] at i6
    rcases i6 with ⟨hv, htw, hstat, hsub⟩ | ⟨hw, htw, hsub⟩
    · refine Or.inr (Or.inr (Or.inl ⟨w, by rw [hv], hstat, ?_⟩))
      rcases hsub with ⟨hcf, -, -⟩ | ⟨hwt, -, -⟩
      · rcases hcf with hc | hf
        · exact Or.inl hc
        · exact Or.inr (Or.inl hf)
      · exact Or.inr (Or.inr hwt)
    · rcases hsub with ⟨hcf2, hfin, hstat2, hmf⟩ |
        ⟨hvt, hfired2, hstat2, himp⟩
      · refine Or.inr (Or.inr (Or.inr ⟨v, by rw [hw], hstat2, ?_⟩))
        rcases hcf2 with hc | hf
        · exact Or.inl hc
        · exact Or.inr (Or.inl hf)
      · exact Or.inr (Or.inr (Or.inr ⟨v, by rw [hw],
          by rw [hvt]; exact hstat2, Or.inr (Or.inr hvt)⟩))
  · rw [hwr] at i6
    exact i6.elim

/-- C1 counterexample: an interleaving of a natural exit with a
concurrent `terminate_execution` call in which the job's status is
finalized twice — `completed` is recorded and then overwritten by
`terminated` — refuting the claim that exactly one terminal status is
recorded and that later finalization attempts change nothing. -/
theorem single_finalization_claim_counterexample :
    (mrun c1Schedule (initMState 0 0)).writes =
      [Status.completed, Status.terminated] ∧
    ¬((mrun c1Schedule (initMState 0 0)).writes.length ≤ 1) :=
  ⟨rfl, by decide⟩

/-- The converse overwrite is also reachable: the monitor's loop-top poll
sees the process alive and its elapsed check fires; a concurrent
terminate call then completes and records `terminated`; the timeout
branch, which never re-polls between its check and its write, kills the
already-dead process and stamps `timeout` over it, giving the history
`[terminated, timeout]` of the characterization's fourth shape. -/
theorem terminated_then_timeout_reachable :
    (mrun c1ScheduleTimeoutRace (initMState 0 5)).writes =
      [Status.terminated, Status.timedOut] ∧
    (mrun c1ScheduleTimeoutRace (initMState 0 5)).status =
      Status.timedOut :=
  ⟨rfl, rfl⟩

end BenchFlow
